import Mathlib

/-!
Verification of the spiritchat persistence layer (data/store.go together with
the SQL procedures and schema of db/migrate_up.sql), shallowly embedded as a
state-transition model over an explicit database state.

Embedding conventions:
  - A table is a list of rows; the cats table carries (tag, name, post_count),
    the posts table carries (num, cat, parent, content).
  - Each pgxpool Exec call autocommits, so one Exec is one transition of the
    model.  A plpgsql RAISE aborts the surrounding statement, so a failing
    statement returns an error and the pre-state is kept unchanged.
  - SQL integer columns are modelled as Int.
-/

namespace SpiritChat

/-- Row of the posts table: num, cat, parent (0 means thread root), content. -/
structure Post where
  num : Int
  cat : String
  parent : Int
  content : String
deriving Repr, DecidableEq

/-- Row of the cats table: tag (primary key), name, post_count (DEFAULT 1). -/
structure Cat where
  tag : String
  name : String
  postCount : Int
deriving Repr, DecidableEq

/-- The persistent database state: the cats table and the posts table. -/
structure DBState where
  cats : List Cat
  posts : List Post
deriving Repr, DecidableEq

/-- Postgres error classes relevant to the store: foreign-key style violations
(SQLSTATE 23503, also the ERRCODE both RAISE statements use) and primary-key
violations. -/
inductive PgErr where
  | fkViolation
  | uniqueViolation
deriving Repr, DecidableEq

/-- Errors surfaced by the Go store layer: ErrNotFound, or a wrapped internal
error. -/
inductive StoreErr where
  | notFound
  | internal
deriving Repr, DecidableEq

/-- SELECT ... FROM cats WHERE tag = $1: first row whose tag matches. -/
def findCat (cats : List Cat) (tag : String) : Option Cat :=
  match cats with
  | [] => none
  | c :: rest => if c.tag = tag then some c else findCat rest tag

/-- EXISTS (SELECT FROM posts WHERE num = ... AND cat = ...). -/
def hasPost (posts : List Post) (cat : String) (num : Int) : Bool :=
  posts.any (fun q => decide (q.num = num ∧ q.cat = cat))

/-- The check_reply BEFORE INSERT trigger of migrate_up.sql: a post with a
nonzero parent must have an existing post with that num in the same category,
else RAISE with ERRCODE 23503. -/
def checkReply (posts : List Post) (new : Post) : Except PgErr Unit :=
  if new.parent ≠ 0 ∧ hasPost posts new.cat new.parent = false then
    Except.error PgErr.fkViolation
  else
    Except.ok ()

/-- INSERT INTO posts: the check_reply trigger fires first, then the
(num, cat) primary key and the cat -> cats.tag foreign key are enforced. -/
def insertPost (s : DBState) (new : Post) : Except PgErr DBState :=
  match checkReply s.posts new with
  | Except.error e => Except.error e
  | Except.ok _ =>
    if hasPost s.posts new.cat new.num then Except.error PgErr.uniqueViolation
    else if (findCat s.cats new.cat).isNone then Except.error PgErr.fkViolation
    else Except.ok { s with posts := s.posts ++ [new] }

/-- Effect of UPDATE cats SET post_count = newCount WHERE tag = cat on one
row: rewrite the counter cell of a matching row, keep other rows. -/
def counterUpdate (cat : String) (newCount : Int) (d : Cat) : Cat :=
  if d.tag = cat then { d with postCount := newCount } else d

/-- UPDATE cats SET post_count = newCount WHERE tag = cat. -/
def advanceCounter (s : DBState) (cat : String) (newCount : Int) : DBState :=
  { s with cats := s.cats.map (counterUpdate cat newCount) }

/-- The write_post procedure of migrate_up.sql, one transaction:
read the counter FOR UPDATE (RAISE 23503 when the category is absent),
insert the post with the current counter value as its num, then advance the
counter to that value plus one.  Any error aborts the whole unit. -/
def writePostTx (s : DBState) (cat : String) (parent : Int) (content : String) :
    Except PgErr DBState :=
  match findCat s.cats cat with
  | none => Except.error PgErr.fkViolation
  | some c =>
    match insertPost s { num := c.postCount, cat := cat, parent := parent, content := content } with
    | Except.error e => Except.error e
    | Except.ok s1 => Except.ok (advanceCounter s1 cat (c.postCount + 1))

/-- DataStore.WritePost (store.go): CALL write_post, mapping SQLSTATE 23503 to
ErrNotFound and any other failure to a wrapped internal error. -/
def WritePost (s : DBState) (cat : String) (parent : Int) (content : String) :
    Except StoreErr DBState :=
  match writePostTx s cat parent content with
  | Except.error PgErr.fkViolation => Except.error StoreErr.notFound
  | Except.error _ => Except.error StoreErr.internal
  | Except.ok s1 => Except.ok s1

/-- The state after a WritePost call: the new state on success, the unchanged
pre-state on failure (the transaction rolled back). -/
def writePostState (s : DBState) (cat : String) (parent : Int) (content : String) : DBState :=
  match WritePost s cat parent content with
  | Except.ok s1 => s1
  | Except.error _ => s

/-- DataStore.RemovePost (store.go): DELETE FROM posts WHERE cat = $1 AND
num = $2; returns the new state and the number of rows affected. -/
def RemovePost (s : DBState) (cat : String) (num : Int) : DBState × Nat :=
  ({ s with posts := s.posts.filter (fun p => !decide (p.cat = cat ∧ p.num = num)) },
   (s.posts.filter (fun p => decide (p.cat = cat ∧ p.num = num))).length)

/-- First Exec of DataStore.RemoveCategory: DELETE FROM posts WHERE cat = $1,
its own autocommitted transaction; returns state and rows affected. -/
def deleteCatPosts (s : DBState) (tag : String) : DBState × Nat :=
  ({ s with posts := s.posts.filter (fun p => !decide (p.cat = tag)) },
   (s.posts.filter (fun p => decide (p.cat = tag))).length)

/-- Second Exec of DataStore.RemoveCategory: DELETE FROM cats WHERE tag = $1,
its own autocommitted transaction.  The posts.cat foreign key rejects the
deletion while posts still reference the row. -/
def deleteCatRow (s : DBState) (tag : String) : Except PgErr (DBState × Nat) :=
  if s.posts.any (fun p => decide (p.cat = tag)) ∧ (findCat s.cats tag).isSome then
    Except.error PgErr.fkViolation
  else
    Except.ok ({ s with cats := s.cats.filter (fun c => !decide (c.tag = tag)) },
               (s.cats.filter (fun c => decide (c.tag = tag))).length)

/-- DataStore.RemoveCategory (store.go): two separate Exec calls, posts first,
then the category row; the affected counts are summed.  On a second-step error
the Go code returns the first count together with the error, leaving the
intermediate state committed. -/
def RemoveCategory (s : DBState) (tag : String) : DBState × Nat × Option PgErr :=
  match deleteCatRow (deleteCatPosts s tag).1 tag with
  | Except.error e => ((deleteCatPosts s tag).1, (deleteCatPosts s tag).2, some e)
  | Except.ok r2 => (r2.1, (deleteCatPosts s tag).2 + r2.2, none)

/-- DataStore.WriteCategory (store.go): INSERT INTO cats (tag, name), the
post_count column taking its DEFAULT of 1; the tag primary key rejects
duplicates. -/
def WriteCategory (s : DBState) (tag name : String) : Except PgErr DBState :=
  if (findCat s.cats tag).isSome then Except.error PgErr.uniqueViolation
  else Except.ok { s with cats := s.cats ++ [{ tag := tag, name := name, postCount := 1 }] }

/-- Ordering of posts by num, the ORDER BY num ASC of the thread query. -/
def postNumLE (a b : Post) : Prop := a.num ≤ b.num

instance : DecidableRel postNumLE := fun a b => inferInstanceAs (Decidable (a.num ≤ b.num))

instance : IsTotal Post postNumLE := ⟨fun a b => Int.le_total a.num b.num⟩

instance : IsTrans Post postNumLE := ⟨fun _ _ _ h1 h2 => Int.le_trans h1 h2⟩

/-- The thread query of DataStore.GetThreadView: SELECT ... FROM posts WHERE
cat = $1 AND (num = $2 OR parent = $2) ORDER BY num ASC. -/
def threadQuery (s : DBState) (tag : String) (n : Int) : List Post :=
  List.insertionSort postNumLE
    (s.posts.filter (fun p => decide (p.cat = tag ∧ (p.num = n ∨ p.parent = n))))

/-- DataStore.GetCategory (store.go): the category row, or ErrNotFound. -/
def GetCategory (s : DBState) (tag : String) : Except StoreErr Cat :=
  match findCat s.cats tag with
  | some c => Except.ok c
  | none => Except.error StoreErr.notFound

/-- DataStore.GetThreadView (store.go): look up the category (ErrNotFound when
absent), run the thread query, and return ErrNotFound when no row matches. -/
def GetThreadView (s : DBState) (tag : String) (n : Int) :
    Except StoreErr (Cat × List Post) :=
  match GetCategory s tag with
  | Except.error e => Except.error e
  | Except.ok c =>
    let posts := threadQuery s tag n
    if posts.isEmpty then Except.error StoreErr.notFound
    else Except.ok (c, posts)

/-- getRateLimitResourceID (store.go): fmt.Sprintf with a dash separator. -/
def getRateLimitResourceID (identifier resource : String) : String :=
  identifier ++ "-" ++ resource

/-- Redis EXISTS over the modelled keyspace (a list of live keys). -/
def hasKey (keys : List String) (k : String) : Bool :=
  match keys with
  | [] => false
  | x :: rest => if x = k then true else hasKey rest k

/-- DataStore.RateLimit (store.go): a duration below 1 ms is a no-op, else SET
the composed key (PEXPIRE only bounds its lifetime, which the untimed model
keeps live). -/
def RateLimit (keys : List String) (identifier resource : String) (ms : Int) : List String :=
  if ms < 1 then keys
  else getRateLimitResourceID identifier resource :: keys

/-- DataStore.IsRateLimited (store.go): EXISTS on the composed key. -/
def IsRateLimited (keys : List String) (identifier resource : String) : Bool :=
  hasKey keys (getRateLimitResourceID identifier resource)

/-- The state-changing operations of the Store interface, for invariants
quantified over every operation. -/
inductive StoreOp where
  | writeCategory (tag name : String)
  | writePost (cat : String) (parent : Int) (content : String)
  | removePost (cat : String) (num : Int)
  | removeCategory (tag : String)

/-- Apply one store operation; a failed operation leaves the state unchanged
(the statement aborted). -/
def applyOp (s : DBState) : StoreOp → DBState
  | StoreOp.writeCategory t n =>
    match WriteCategory s t n with
    | Except.ok s1 => s1
    | Except.error _ => s
  | StoreOp.writePost c p txt => writePostState s c p txt
  | StoreOp.removePost c n => (RemovePost s c n).1
  | StoreOp.removeCategory t => (RemoveCategory s t).1

/-- Iterated WritePost calls with parent 0 (thread roots), failing fast. -/
def writeSeq (s : DBState) (cat : String) (contents : List String) :
    Except StoreErr DBState :=
  match contents with
  | [] => Except.ok s
  | c :: rest =>
    match WritePost s cat 0 c with
    | Except.error e => Except.error e
    | Except.ok s1 => writeSeq s1 cat rest

/-- Referential integrity of a state: every post names an existing category. -/
def fkOk (s : DBState) : Prop := ∀ p ∈ s.posts, (findCat s.cats p.cat).isSome = true

/-- Primary-key integrity of the cats table: tags are pairwise distinct. -/
def catsUnique (s : DBState) : Prop := s.cats.Pairwise (fun a b => a.tag ≠ b.tag)

/-- Example state: one category with counter 3 holding a thread root numbered 1
and a reply numbered 2 whose parent is 1. -/
def exThreadState : DBState :=
  { cats := [{ tag := "a", name := "A", postCount := 3 }],
    posts := [{ num := 1, cat := "a", parent := 0, content := "op" },
              { num := 2, cat := "a", parent := 1, content := "re" }] }

/-- Example state: one category with counter 2 holding a single post. -/
def exOnePostState : DBState :=
  { cats := [{ tag := "a", name := "A", postCount := 2 }],
    posts := [{ num := 1, cat := "a", parent := 0, content := "x" }] }

/-- Example state: one fresh category and no posts. -/
def exFreshState : DBState :=
  { cats := [{ tag := "a", name := "A", postCount := 1 }], posts := [] }

/-- The committed state between the two Exec calls of RemoveCategory on the
one-post example state. -/
def exMidState : DBState := (deleteCatPosts exOnePostState "a").1

/-- The state the fresh example state reaches after one successful WritePost. -/
def exFreshAfter : DBState :=
  { cats := [{ tag := "a", name := "A", postCount := 2 }],
    posts := [{ num := 1, cat := "a", parent := 0, content := "x" }] }

/-- The state the fresh example state reaches after three thread writes. -/
def exSeqAfter : DBState :=
  { cats := [{ tag := "a", name := "A", postCount := 4 }],
    posts := [{ num := 1, cat := "a", parent := 0, content := "p" },
              { num := 2, cat := "a", parent := 0, content := "q" },
              { num := 3, cat := "a", parent := 0, content := "r" }] }

/-! Helper lemmas shared by the claim theorems. -/

/-- A row found by tag indeed carries that tag. -/
theorem findCat_tag {cats : List Cat} {tag : String} {c : Cat}
    (h : findCat cats tag = some c) : c.tag = tag := by
  induction cats with
  | nil => simp [findCat] at h
  | cons d rest ih =>
    by_cases hd : d.tag = tag
    · simp [findCat, hd] at h
      rw [← h]
      exact hd
    · simp [findCat, hd] at h
      exact ih h

/-- Membership characterization of hasPost. -/
theorem hasPost_iff {posts : List Post} {cat : String} {num : Int} :
    hasPost posts cat num = true ↔ ∃ q ∈ posts, q.num = num ∧ q.cat = cat := by
  simp [hasPost, List.any_eq_true]

/-- counterUpdate never changes a row's tag. -/
theorem counterUpdate_tag (cat : String) (k : Int) (d : Cat) :
    (counterUpdate cat k d).tag = d.tag := by
  unfold counterUpdate
  split <;> rfl

/-- Looking a tag up after the counter update of advanceCounter. -/
theorem findCat_map_counter (cats : List Cat) (tag t : String) (k : Int) :
    findCat (cats.map (counterUpdate tag k)) t
      = (findCat cats t).map (counterUpdate tag k) := by
  induction cats with
  | nil => simp [findCat]
  | cons d rest ih =>
    simp only [List.map_cons, findCat, counterUpdate_tag]
    by_cases hd : d.tag = t
    · simp [hd]
    · simp [hd, ih]

/-- Looking a tag up after the cats deletion of deleteCatRow. -/
theorem findCat_filter_ne (cats : List Cat) (tag t : String) :
    findCat (cats.filter (fun c => !decide (c.tag = tag))) t
      = if t = tag then none else findCat cats t := by
  induction cats with
  | nil => simp [findCat]
  | cons d rest ih =>
    by_cases hdt : d.tag = tag
    · rw [List.filter_cons_of_neg (by simp [hdt]), ih]
      by_cases ht : t = tag
      · simp [ht]
      · have hd : ¬ d.tag = t := by
          intro he
          exact ht (he ▸ hdt)
        simp [ht, findCat, hd]
    · rw [List.filter_cons_of_pos (by simp [hdt])]
      by_cases hd : d.tag = t
      · have ht : ¬ t = tag := by
          intro he
          exact hdt (hd.trans he)
        simp [findCat, hd, ht]
      · simp [findCat, hd, ih]

/-- Characterization of a successful WritePost: the post row is appended with
the pre-state counter value as its num, and the category's counter cell is
rewritten to that value plus one. -/
theorem writePost_ok_char {s : DBState} {cat : String} {parent : Int} {content : String}
    {c : Cat} {s1 : DBState}
    (hc : findCat s.cats cat = some c)
    (h : WritePost s cat parent content = Except.ok s1) :
    s1.posts = s.posts ++ [{ num := c.postCount, cat := cat, parent := parent, content := content }] ∧
    s1.cats = s.cats.map (counterUpdate cat (c.postCount + 1)) := by
  cases hcr : checkReply s.posts { num := c.postCount, cat := cat, parent := parent, content := content } with
  | error e =>
    cases e <;> simp [WritePost, writePostTx, insertPost, hc, hcr] at h
  | ok u =>
    by_cases hpk : hasPost s.posts cat c.postCount = true
    · simp [WritePost, writePostTx, insertPost, hc, hcr, hpk] at h
    · simp only [Bool.not_eq_true] at hpk
      simp [WritePost, writePostTx, insertPost, hc, hcr, hpk] at h
      rw [← h]
      exact ⟨rfl, rfl⟩

/-- A failed WritePost leaves the state unchanged. -/
theorem writePostState_of_error {s : DBState} {cat : String} {parent : Int} {content : String}
    {e : StoreErr} (h : WritePost s cat parent content = Except.error e) :
    writePostState s cat parent content = s := by
  unfold writePostState
  rw [h]

/-- WritePost against an absent category fails with ErrNotFound. -/
theorem writePost_absent {s : DBState} {cat : String} (parent : Int) (content : String)
    (h : findCat s.cats cat = none) :
    WritePost s cat parent content = Except.error StoreErr.notFound := by
  unfold WritePost writePostTx
  rw [h]

/-- The counter cell a successful WritePost leaves behind. -/
theorem writePost_ok_counter {s : DBState} {cat : String} {parent : Int} {content : String}
    {c : Cat} {s1 : DBState}
    (hc : findCat s.cats cat = some c)
    (h : WritePost s cat parent content = Except.ok s1) :
    findCat s1.cats cat = some { c with postCount := c.postCount + 1 } := by
  have hchar := writePost_ok_char hc h
  rw [hchar.2, findCat_map_counter, hc]
  simp [counterUpdate, findCat_tag hc]

/-- C1: WritePost runs lock-counter, insert-post, advance-counter as one
atomic unit: the counter read FOR UPDATE returns nothing for an absent
category and the call fails with NotFound leaving the state unchanged; on
success the inserted row's num is the pre-state counter value and the
category's counter ends up advanced by exactly one. -/
theorem c1_writePost_lock_insert_advance (s : DBState) (cat : String)
    (parent : Int) (content : String) :
    (findCat s.cats cat = none →
      WritePost s cat parent content = Except.error StoreErr.notFound ∧
      writePostState s cat parent content = s) ∧
    (∀ c s1, findCat s.cats cat = some c →
      WritePost s cat parent content = Except.ok s1 →
      s1.posts = s.posts ++ [{ num := c.postCount, cat := cat, parent := parent, content := content }] ∧
      findCat s1.cats cat = some { c with postCount := c.postCount + 1 }) := by
  constructor
  · intro h
    have h1 := writePost_absent parent content h
    exact ⟨h1, writePostState_of_error h1⟩
  · intro c s1 hc h
    exact ⟨(writePost_ok_char hc h).1, writePost_ok_counter hc h⟩

/-- Witness for C1 at a concrete state: a missing category is rejected with
NotFound, and a write into the fresh example category appends post number 1
and advances the counter to 2. -/
theorem c1_witness :
    (WritePost exFreshState "b" 0 "x" = Except.error StoreErr.notFound ∧
     writePostState exFreshState "b" 0 "x" = exFreshState) ∧
    (exFreshAfter.posts
        = exFreshState.posts ++ [{ num := 1, cat := "a", parent := 0, content := "x" }] ∧
     findCat exFreshAfter.cats "a" = some { tag := "a", name := "A", postCount := 2 }) := by
  refine ⟨(c1_writePost_lock_insert_advance exFreshState "b" 0 "x").1 (by decide), ?_⟩
  have h := (c1_writePost_lock_insert_advance exFreshState "a" 0 "x").2
      { tag := "a", name := "A", postCount := 1 } exFreshAfter (by decide) (by rfl)
  simpa using h

/-- C7: WritePost on a tag naming no category fails with NotFound and leaves
the database state exactly as before: no post row inserted, no counter
advanced. -/
theorem c7_write_nonexistent_category (s : DBState) (tag : String)
    (parent : Int) (content : String)
    (h : findCat s.cats tag = none) :
    WritePost s tag parent content = Except.error StoreErr.notFound ∧
    writePostState s tag parent content = s := by
  have h1 := writePost_absent parent content h
  exact ⟨h1, writePostState_of_error h1⟩

/-- Witness for C7: writing into the absent category "zzz" of the thread
example state fails with NotFound and changes nothing. -/
theorem c7_witness :
    WritePost exThreadState "zzz" 5 "y" = Except.error StoreErr.notFound ∧
    writePostState exThreadState "zzz" 5 "y" = exThreadState :=
  c7_write_nonexistent_category exThreadState "zzz" 5 "y" (by decide)

/-- A row found before an append is still the row found after it. -/
theorem findCat_append_of_some {cats : List Cat} {t : String} {c : Cat}
    (h : findCat cats t = some c) (l : List Cat) :
    findCat (cats ++ l) t = some c := by
  induction cats with
  | nil => simp [findCat] at h
  | cons d rest ih =>
    by_cases hd : d.tag = t
    · simp [findCat, hd] at h ⊢
      exact h
    · simp [findCat, hd] at h ⊢
      exact ih h

/-- A successful WriteCategory appends the new row with counter 1. -/
theorem writeCategory_ok_cats {s : DBState} {tag nm : String} {s1 : DBState}
    (h : WriteCategory s tag nm = Except.ok s1) :
    s1.cats = s.cats ++ [{ tag := tag, name := nm, postCount := 1 }] := by
  unfold WriteCategory at h
  split at h
  · cases h
  · cases h
    rfl

/-- The cats table RemoveCategory leaves behind: unchanged when the second
statement failed, else with the tagged row filtered out. -/
theorem removeCategory_cats (s : DBState) (tag : String) :
    (RemoveCategory s tag).1.cats = s.cats ∨
    (RemoveCategory s tag).1.cats = s.cats.filter (fun c => !decide (c.tag = tag)) := by
  unfold RemoveCategory
  cases hdel : deleteCatRow (deleteCatPosts s tag).1 tag with
  | error e =>
    exact Or.inl rfl
  | ok r2 =>
    unfold deleteCatRow at hdel
    split at hdel
    · cases hdel
    · cases hdel
      exact Or.inr rfl

/-- C2: starting from counter value k, a sequence of N successful
WritePost(C, 0, ...) calls appends N posts whose num values are exactly
k, k+1, ..., k+N-1 (no duplicate numbers, no gaps), and leaves the counter at
k+N.  Concurrent writers serialize on the FOR UPDATE counter-row lock, so the
serialized sequence modelled here covers every interleaving. -/
theorem c2_sequential_numbering (contents : List String) :
    ∀ (s : DBState) (cat : String) (c : Cat) (s1 : DBState),
      findCat s.cats cat = some c →
      writeSeq s cat contents = Except.ok s1 →
      (∃ news : List Post, s1.posts = s.posts ++ news ∧
         news.map Post.num
           = (List.range contents.length).map (fun i : Nat => c.postCount + (i : Int))) ∧
      findCat s1.cats cat
        = some { c with postCount := c.postCount + (contents.length : Int) } := by
  induction contents with
  | nil =>
    intro s cat c s1 hc h
    simp [writeSeq] at h
    subst h
    refine ⟨⟨[], by simp, by simp⟩, ?_⟩
    simpa using hc
  | cons hd tl ih =>
    intro s cat c s1 hc h
    unfold writeSeq at h
    cases hw : WritePost s cat 0 hd with
    | error e => rw [hw] at h; simp at h
    | ok s2 =>
      rw [hw] at h
      simp only at h
      have hchar := writePost_ok_char hc hw
      have hc2 : findCat s2.cats cat = some { c with postCount := c.postCount + 1 } :=
        writePost_ok_counter hc hw
      obtain ⟨⟨news, hposts, hnums⟩, hcnt⟩ := ih s2 cat _ s1 hc2 h
      constructor
      · refine ⟨{ num := c.postCount, cat := cat, parent := 0, content := hd } :: news, ?_, ?_⟩
        · rw [hposts, hchar.1, List.append_assoc]
          rfl
        · simp only [List.map_cons, hnums]
          rw [List.length_cons, List.range_succ_eq_map, List.map_cons, List.map_map]
          congr 1
          · simp
          · apply List.map_congr_left
            intro i hi
            simp only [Function.comp_apply]
            push_cast
            ring
      · rw [hcnt]
        simp only [List.length_cons]
        have heq : c.postCount + 1 + (tl.length : Int)
            = c.postCount + ((tl.length + 1 : Nat) : Int) := by
          push_cast
          ring
        simp [heq]

/-- Witness for C2: three writes into the fresh example category (counter 1)
are numbered exactly 1, 2, 3 and leave the counter at 4. -/
theorem c2_witness :
    writeSeq exFreshState "a" ["p", "q", "r"] = Except.ok exSeqAfter ∧
    (∃ news : List Post, exSeqAfter.posts = exFreshState.posts ++ news ∧
       news.map Post.num = [1, 2, 3]) ∧
    findCat exSeqAfter.cats "a" = some { tag := "a", name := "A", postCount := 4 } := by
  have h := c2_sequential_numbering ["p", "q", "r"] exFreshState "a"
      { tag := "a", name := "A", postCount := 1 } exSeqAfter (by decide) (by rfl)
  obtain ⟨⟨news, hposts, hnums⟩, hcnt⟩ := h
  refine ⟨by rfl, ⟨news, hposts, ?_⟩, ?_⟩
  · rw [hnums]
    decide
  · rw [hcnt]
    decide

/-- C3: across every store operation the postCount counter of a category that
exists before and after is non-decreasing; any change is exactly +1 and comes
from a successful WritePost into that category — no removal ever decrements a
counter cell it leaves in place. -/
theorem c3_postCount_monotone (s : DBState) (op : StoreOp) (t : String) (c c2 : Cat)
    (h1 : findCat s.cats t = some c)
    (h2 : findCat (applyOp s op).cats t = some c2) :
    c.postCount ≤ c2.postCount ∧
    (c2.postCount = c.postCount ∨
      ∃ cat parent content s1, op = StoreOp.writePost cat parent content ∧
        WritePost s cat parent content = Except.ok s1 ∧ t = cat ∧
        c2.postCount = c.postCount + 1) := by
  cases op with
  | writeCategory tag nm =>
    cases hwc : WriteCategory s tag nm with
    | error e =>
      simp only [applyOp, hwc] at h2
      rw [h1] at h2
      cases h2
      exact ⟨le_refl _, Or.inl rfl⟩
    | ok s1 =>
      simp only [applyOp, hwc] at h2
      rw [writeCategory_ok_cats hwc, findCat_append_of_some h1] at h2
      cases h2
      exact ⟨le_refl _, Or.inl rfl⟩
  | writePost cat parent content =>
    cases hw : WritePost s cat parent content with
    | error e =>
      simp only [applyOp, writePostState, hw] at h2
      rw [h1] at h2
      cases h2
      exact ⟨le_refl _, Or.inl rfl⟩
    | ok s1 =>
      simp only [applyOp, writePostState, hw] at h2
      cases hfc : findCat s.cats cat with
      | none => rw [writePost_absent parent content hfc] at hw; cases hw
      | some c0 =>
        rw [(writePost_ok_char hfc hw).2, findCat_map_counter, h1] at h2
        simp only [Option.map] at h2
        by_cases ht : t = cat
        · subst ht
          rw [h1] at hfc
          cases hfc
          have hup : counterUpdate t (c.postCount + 1) c
              = { c with postCount := c.postCount + 1 } := by
            unfold counterUpdate
            rw [if_pos (findCat_tag h1)]
          rw [hup] at h2
          cases h2
          exact ⟨by simp, Or.inr ⟨t, parent, content, s1, rfl, hw, rfl, rfl⟩⟩
        · have hup : counterUpdate cat (c0.postCount + 1) c = c := by
            unfold counterUpdate
            rw [if_neg]
            rw [findCat_tag h1]
            exact ht
          rw [hup] at h2
          cases h2
          exact ⟨le_refl _, Or.inl rfl⟩
  | removePost cat num =>
    simp only [applyOp, RemovePost] at h2
    rw [h1] at h2
    cases h2
    exact ⟨le_refl _, Or.inl rfl⟩
  | removeCategory tag =>
    simp only [applyOp] at h2
    cases removeCategory_cats s tag with
    | inl hcats =>
      rw [hcats, h1] at h2
      cases h2
      exact ⟨le_refl _, Or.inl rfl⟩
    | inr hcats =>
      rw [hcats, findCat_filter_ne] at h2
      by_cases ht : t = tag
      · rw [if_pos ht] at h2
        cases h2
      · rw [if_neg ht, h1] at h2
        cases h2
        exact ⟨le_refl _, Or.inl rfl⟩

/-- Witness for C3: a successful thread write into the fresh example category
moves its counter from 1 to 2, which is exactly the +1 disjunct. -/
theorem c3_witness :
    (1 : Int) ≤ 2 ∧
    ((2 : Int) = 1 ∨
      ∃ cat parent content s1,
        StoreOp.writePost "a" 0 "x" = StoreOp.writePost cat parent content ∧
        WritePost exFreshState cat parent content = Except.ok s1 ∧ "a" = cat ∧
        (2 : Int) = 1 + 1) := by
  have h := c3_postCount_monotone exFreshState (StoreOp.writePost "a" 0 "x") "a"
      { tag := "a", name := "A", postCount := 1 } { tag := "a", name := "A", postCount := 2 }
      (by decide) (by rfl)
  simpa using h

/-- Both RemoveCategory statements succeed: the posts of the tag go first, the
category row second (the foreign-key check passes because the posts are
already gone), no error is reported, and the affected counts add up. -/
theorem removeCategory_run (s : DBState) (tag : String) :
    (RemoveCategory s tag).1.posts = s.posts.filter (fun p => !decide (p.cat = tag)) ∧
    (RemoveCategory s tag).1.cats = s.cats.filter (fun c => !decide (c.tag = tag)) ∧
    (RemoveCategory s tag).2.2 = none ∧
    (RemoveCategory s tag).2.1
      = (s.posts.filter (fun p => decide (p.cat = tag))).length
        + (s.cats.filter (fun c => decide (c.tag = tag))).length := by
  have hany : (deleteCatPosts s tag).1.posts.any (fun p => decide (p.cat = tag)) = false := by
    rw [List.any_eq_false]
    intro a ha
    simp only [deleteCatPosts, List.mem_filter] at ha
    simp_all
  have hcond : ¬((deleteCatPosts s tag).1.posts.any (fun p => decide (p.cat = tag)) = true ∧
      (findCat (deleteCatPosts s tag).1.cats tag).isSome = true) := by
    simp [hany]
  unfold RemoveCategory deleteCatRow
  rw [if_neg hcond]
  exact ⟨rfl, rfl, rfl, rfl⟩

/-- Rows kept by the posts deletion hold no post of the deleted tag. -/
theorem filter_not_tag_then_tag (posts : List Post) (tag : String) :
    (posts.filter (fun p => !decide (p.cat = tag))).filter
      (fun p => decide (p.cat = tag)) = [] := by
  rw [List.filter_eq_nil_iff]
  intro a ha
  simp only [List.mem_filter] at ha
  simp_all

/-- With pairwise-distinct tags, a present tag occupies exactly one row. -/
theorem filter_tag_length_one {cats : List Cat} {tag : String} {c : Cat}
    (hu : cats.Pairwise (fun a b => a.tag ≠ b.tag)) (h : findCat cats tag = some c) :
    (cats.filter (fun d => decide (d.tag = tag))).length = 1 := by
  induction cats with
  | nil => simp [findCat] at h
  | cons d rest ih =>
    rw [List.pairwise_cons] at hu
    by_cases hd : d.tag = tag
    · rw [List.filter_cons_of_pos (by simp [hd])]
      have hrest : rest.filter (fun d => decide (d.tag = tag)) = [] := by
        rw [List.filter_eq_nil_iff]
        intro a ha
        have hne := hu.1 a ha
        rw [hd] at hne
        simp [Ne.symm hne]
      rw [hrest]
      rfl
    · rw [List.filter_cons_of_neg (by simp [hd])]
      simp only [findCat, hd, if_neg] at h
      exact ih hu.2 h

/-- An absent tag occupies no row of the cats table. -/
theorem filter_tag_nil {cats : List Cat} {tag : String}
    (h : findCat cats tag = none) :
    cats.filter (fun d => decide (d.tag = tag)) = [] := by
  induction cats with
  | nil => rfl
  | cons d rest ih =>
    by_cases hd : d.tag = tag
    · simp [findCat, hd] at h
    · rw [List.filter_cons_of_neg (by simp [hd])]
      simp only [findCat, hd, if_neg] at h
      exact ih h

/-- Under referential integrity, an absent category has no posts. -/
theorem posts_of_absent_cat {s : DBState} {tag : String}
    (hfk : fkOk s) (h : findCat s.cats tag = none) :
    s.posts.filter (fun p => decide (p.cat = tag)) = [] := by
  rw [List.filter_eq_nil_iff]
  intro a ha
  intro hcontra
  rw [decide_eq_true_eq] at hcontra
  have := hfk a ha
  rw [hcontra, h] at this
  cases this

/-- C4 counterexample: in the thread example state, post 1 of category a is a
thread root and post 2 is its reply, yet RemovePost(a, 1) leaves the reply in
place (the result is exactly the one-row deletion), contradicting the claimed
cascade onto replies. -/
theorem c4_counterexample :
    ({ num := 1, cat := "a", parent := 0, content := "op" } : Post) ∈ exThreadState.posts ∧
    ({ num := 1, cat := "a", parent := 0, content := "op" } : Post).parent = 0 ∧
    ({ num := 2, cat := "a", parent := 1, content := "re" } : Post) ∈ exThreadState.posts ∧
    ({ num := 2, cat := "a", parent := 1, content := "re" } : Post).parent = 1 ∧
    (RemovePost exThreadState "a" 1).1.posts
      = [{ num := 2, cat := "a", parent := 1, content := "re" }] ∧
    (RemovePost exThreadState "a" 1).2 = 1 := by
  decide

/-- C4 amended: RemovePost(C, n) deletes exactly the rows matching cat = C and
num = n — one row under the primary key — whether the target is a thread root
or a reply; replies whose parent equals n and every post of other threads and
other categories survive. -/
theorem c4_remove_post_single_row (s : DBState) (cat : String) (num : Int) (p : Post) :
    p ∈ (RemovePost s cat num).1.posts ↔ (p ∈ s.posts ∧ ¬(p.cat = cat ∧ p.num = num)) := by
  simp only [RemovePost, List.mem_filter, Bool.not_eq_eq_eq_not, Bool.not_true,
    decide_eq_false_iff_not]

/-- Witness for the amended C4: after RemovePost(a, 1) on the thread example
state the reply numbered 2 is still present, and the root numbered 1 is not. -/
theorem c4_witness :
    ({ num := 2, cat := "a", parent := 1, content := "re" } : Post)
        ∈ (RemovePost exThreadState "a" 1).1.posts ∧
    ({ num := 1, cat := "a", parent := 0, content := "op" } : Post)
        ∉ (RemovePost exThreadState "a" 1).1.posts := by
  constructor
  · exact (c4_remove_post_single_row exThreadState "a" 1 _).mpr (by decide)
  · intro hmem
    have h := (c4_remove_post_single_row exThreadState "a" 1 _).mp hmem
    simp at h

/-- C5 counterexample: on the one-post example state the committed state
between the two Exec calls of RemoveCategory differs from both the pre-state
and the post-state, and in it the category row is still present while every
post of the category is already gone — an observable non-atomic intermediate
state. -/
theorem c5_counterexample :
    exMidState ≠ exOnePostState ∧
    exMidState ≠ (RemoveCategory exOnePostState "a").1 ∧
    findCat exMidState.cats "a" = some { tag := "a", name := "A", postCount := 2 } ∧
    exMidState.posts.filter (fun p => decide (p.cat = "a")) = [] ∧
    exOnePostState.posts.filter (fun p => decide (p.cat = "a")) ≠ [] := by
  decide

/-- C5 amended: RemoveCategory runs as two separate autocommitted statements,
posts first and the category row second, so a concurrent reader may observe
the intermediate state in which the category row is unchanged while its posts
are gone; but neither the intermediate nor the final state ever shows the
category row gone while posts referencing it remain, and the final state has
neither the posts nor the row. -/
theorem c5_remove_category_two_steps (s : DBState) (tag : String) :
    (deleteCatPosts s tag).1.cats = s.cats ∧
    (deleteCatPosts s tag).1.posts.filter (fun p => decide (p.cat = tag)) = [] ∧
    (RemoveCategory s tag).1.posts.filter (fun p => decide (p.cat = tag)) = [] ∧
    findCat (RemoveCategory s tag).1.cats tag = none := by
  have hrun := removeCategory_run s tag
  refine ⟨rfl, ?_, ?_, ?_⟩
  · exact filter_not_tag_then_tag s.posts tag
  · rw [hrun.1]
    exact filter_not_tag_then_tag s.posts tag
  · rw [hrun.2.1, findCat_filter_ne, if_pos rfl]

/-- C6: with unique tags and referential integrity, RemoveCategory on an
existing category with M posts reports M + 1 affected rows, no error, and
leaves neither posts of the category nor its row; on an absent tag it reports
0 affected rows and no error. -/
theorem c6_remove_category_contract (s : DBState) (tag : String)
    (hu : catsUnique s) (hfk : fkOk s) :
    (∀ c, findCat s.cats tag = some c →
      (RemoveCategory s tag).2.1
        = (s.posts.filter (fun p => decide (p.cat = tag))).length + 1 ∧
      (RemoveCategory s tag).2.2 = none ∧
      (RemoveCategory s tag).1.posts.filter (fun p => decide (p.cat = tag)) = [] ∧
      findCat (RemoveCategory s tag).1.cats tag = none) ∧
    (findCat s.cats tag = none →
      (RemoveCategory s tag).2.1 = 0 ∧ (RemoveCategory s tag).2.2 = none) := by
  have hrun := removeCategory_run s tag
  constructor
  · intro c hc
    refine ⟨?_, hrun.2.2.1, ?_, ?_⟩
    · rw [hrun.2.2.2, filter_tag_length_one hu hc]
    · rw [hrun.1]
      exact filter_not_tag_then_tag s.posts tag
    · rw [hrun.2.1, findCat_filter_ne, if_pos rfl]
  · intro hc
    refine ⟨?_, hrun.2.2.1⟩
    rw [hrun.2.2.2, filter_tag_nil hc, posts_of_absent_cat hfk hc]
    rfl

/-- Witness for C6: removing category a of the thread example state (two
posts) reports 3 affected rows and no error; removing the absent tag b
reports 0 and no error. -/
theorem c6_witness :
    ((RemoveCategory exThreadState "a").2.1 = 2 + 1 ∧
     (RemoveCategory exThreadState "a").2.2 = none ∧
     (RemoveCategory exThreadState "a").1.posts.filter (fun p => decide (p.cat = "a")) = [] ∧
     findCat (RemoveCategory exThreadState "a").1.cats "a" = none) ∧
    ((RemoveCategory exThreadState "b").2.1 = 0 ∧
     (RemoveCategory exThreadState "b").2.2 = none) := by
  have h := c6_remove_category_contract exThreadState "a"
      (by unfold catsUnique; decide) (by unfold fkOk; decide)
  have h2 := c6_remove_category_contract exThreadState "b"
      (by unfold catsUnique; decide) (by unfold fkOk; decide)
  exact ⟨h.1 { tag := "a", name := "A", postCount := 3 } (by decide), h2.2 (by decide)⟩

/-- C8: for an existing category and a nonzero parent number p, WritePost
fails with NotFound and inserts nothing while no post numbered p exists in the
category, and succeeds (inserting the reply under the current counter value)
once a thread root numbered p exists there.  The freshness hypothesis is the
allocator invariant that every existing num of the category lies below its
counter. -/
theorem c8_reply_parent_check (s : DBState) (cat : String) (p : Int) (content : String)
    (c : Cat) (hc : findCat s.cats cat = some c) (hp : p ≠ 0)
    (hfresh : ∀ q ∈ s.posts, q.cat = cat → q.num < c.postCount) :
    (hasPost s.posts cat p = false →
      WritePost s cat p content = Except.error StoreErr.notFound ∧
      writePostState s cat p content = s) ∧
    ((∃ q ∈ s.posts, q.num = p ∧ q.cat = cat ∧ q.parent = 0) →
      ∃ s1, WritePost s cat p content = Except.ok s1 ∧
        { num := c.postCount, cat := cat, parent := p, content := content } ∈ s1.posts) := by
  constructor
  · intro hnp
    have herr : WritePost s cat p content = Except.error StoreErr.notFound := by
      unfold WritePost writePostTx insertPost checkReply
      rw [hc]
      simp [hp, hnp]
    exact ⟨herr, writePostState_of_error herr⟩
  · rintro ⟨q, hq, hqn, hqc, hqp⟩
    have hhp : hasPost s.posts cat p = true := hasPost_iff.mpr ⟨q, hq, hqn, hqc⟩
    have hpk : hasPost s.posts cat c.postCount = false := by
      rw [Bool.eq_false_iff]
      intro hcontra
      obtain ⟨q2, hq2, hq2n, hq2c⟩ := hasPost_iff.mp hcontra
      have := hfresh q2 hq2 hq2c
      omega
    refine ⟨advanceCounter
        { s with posts := s.posts ++ [{ num := c.postCount, cat := cat, parent := p, content := content }] }
        cat (c.postCount + 1), ?_, ?_⟩
    · unfold WritePost writePostTx insertPost checkReply
      rw [hc]
      simp [hhp, hpk, hc]
    · simp [advanceCounter]

/-- Witness for C8: in the thread example state (roots below counter 3), a
reply to the nonexistent number 5 fails with NotFound and changes nothing,
while a reply to the existing root 1 succeeds and lands as post number 3. -/
theorem c8_witness :
    (WritePost exThreadState "a" 5 "w" = Except.error StoreErr.notFound ∧
     writePostState exThreadState "a" 5 "w" = exThreadState) ∧
    (∃ s1, WritePost exThreadState "a" 1 "w" = Except.ok s1 ∧
       { num := 3, cat := "a", parent := 1, content := "w" } ∈ s1.posts) := by
  constructor
  · exact (c8_reply_parent_check exThreadState "a" 5 "w"
      { tag := "a", name := "A", postCount := 3 } (by decide) (by decide) (by decide)).1
      (by decide)
  · have h := (c8_reply_parent_check exThreadState "a" 1 "w"
      { tag := "a", name := "A", postCount := 3 } (by decide) (by decide) (by decide)).2
      ⟨{ num := 1, cat := "a", parent := 0, content := "op" }, by decide, rfl, rfl, rfl⟩
    exact h

/-- C9 counterexample: the distinct pairs (a-b, c) and (a, b-c) share the
composed key, so rate limiting the first makes IsRateLimited report the
second as limited, against the claimed independence of all distinct pairs. -/
theorem c9_counterexample :
    (("a-b", "c") ≠ (("a", "b-c") : String × String)) ∧
    getRateLimitResourceID "a-b" "c" = getRateLimitResourceID "a" "b-c" ∧
    IsRateLimited (RateLimit [] "a-b" "c" 100) "a" "b-c" = true ∧
    IsRateLimited [] "a" "b-c" = false := by
  refine ⟨by decide, rfl, ?_, rfl⟩
  rfl

/-- C9 amended: rate limiting one pair leaves another pair's limited state
unchanged whenever their composed keys identifier-dash-resource differ (in
particular whenever the identifiers are dash-free and the pairs differ);
pairs whose compositions collide, such as (a-b, c) and (a, b-c), share one
throttle state. -/
theorem c9_rate_limit_frame (keys : List String) (id1 r1 id2 r2 : String) (ms : Int)
    (h : getRateLimitResourceID id1 r1 ≠ getRateLimitResourceID id2 r2) :
    IsRateLimited (RateLimit keys id1 r1 ms) id2 r2 = IsRateLimited keys id2 r2 := by
  unfold RateLimit
  by_cases hms : ms < 1
  · rw [if_pos hms]
  · rw [if_neg hms]
    unfold IsRateLimited hasKey
    rw [if_neg h]
    cases keys <;> rfl

/-- Witness for the amended C9: limiting (ip1, post) does not limit
(ip2, post), whose key differs. -/
theorem c9_witness :
    IsRateLimited (RateLimit [] "ip1" "post" 500) "ip2" "post"
      = IsRateLimited [] "ip2" "post" :=
  c9_rate_limit_frame [] "ip1" "post" "ip2" "post" 500 (by decide)

/-- Membership in the thread query is membership in the filtered posts. -/
theorem threadQuery_mem (s : DBState) (tag : String) (n : Int) (P : Post) :
    P ∈ threadQuery s tag n ↔ (P ∈ s.posts ∧ (P.cat = tag ∧ (P.num = n ∨ P.parent = n))) := by
  unfold threadQuery
  rw [(List.perm_insertionSort postNumLE _).mem_iff]
  simp [List.mem_filter]

/-- C10: GetThreadView does not require n to be a thread root: whenever the
category exists and any post numbered n exists in it — a reply included — the
call returns the category together with the matching posts in ascending num
order, the queried post among them; and it returns NotFound exactly when the
category is absent or no post matches num = n or parent = n. -/
theorem c10_thread_view (s : DBState) (tag : String) (n : Int) :
    (∀ c, findCat s.cats tag = some c →
      ∀ P ∈ s.posts, P.cat = tag → P.num = n →
        ∃ posts, GetThreadView s tag n = Except.ok (c, posts) ∧ P ∈ posts ∧
          List.Sorted postNumLE posts) ∧
    (GetThreadView s tag n = Except.error StoreErr.notFound ↔
      (findCat s.cats tag = none ∨
       s.posts.filter (fun p => decide (p.cat = tag ∧ (p.num = n ∨ p.parent = n))) = [])) := by
  constructor
  · intro c hc P hP hPc hPn
    have hgc : GetCategory s tag = Except.ok c := by
      unfold GetCategory
      rw [hc]
    have hmem : P ∈ threadQuery s tag n :=
      (threadQuery_mem s tag n P).mpr ⟨hP, hPc, Or.inl hPn⟩
    have hie : (threadQuery s tag n).isEmpty = false := by
      rw [Bool.eq_false_iff]
      intro hcontra
      rw [List.isEmpty_iff] at hcontra
      rw [hcontra] at hmem
      cases hmem
    refine ⟨threadQuery s tag n, ?_, hmem, List.sorted_insertionSort postNumLE _⟩
    simp only [GetThreadView, hgc, hie]
    rfl
  · constructor
    · intro herr
      cases hfc : findCat s.cats tag with
      | none => exact Or.inl rfl
      | some c =>
        right
        have hgc : GetCategory s tag = Except.ok c := by
          unfold GetCategory
          rw [hfc]
        simp only [GetThreadView, hgc] at herr
        by_cases hie : (threadQuery s tag n).isEmpty = true
        · have hq : threadQuery s tag n = [] := List.isEmpty_iff.mp hie
          have hperm := List.perm_insertionSort postNumLE
            (s.posts.filter (fun p => decide (p.cat = tag ∧ (p.num = n ∨ p.parent = n))))
          rw [show List.insertionSort postNumLE
              (s.posts.filter (fun p => decide (p.cat = tag ∧ (p.num = n ∨ p.parent = n))))
              = threadQuery s tag n from rfl, hq] at hperm
          exact (List.Perm.nil_eq hperm).symm
        · rw [if_neg hie] at herr
          cases herr
    · intro hor
      cases hor with
      | inl hnone =>
        have hgc : GetCategory s tag = Except.error StoreErr.notFound := by
          unfold GetCategory
          rw [hnone]
        simp only [GetThreadView, hgc]
      | inr hfil =>
        cases hfc : findCat s.cats tag with
        | none =>
          have hgc : GetCategory s tag = Except.error StoreErr.notFound := by
            unfold GetCategory
            rw [hfc]
          simp only [GetThreadView, hgc]
        | some c =>
          have hgc : GetCategory s tag = Except.ok c := by
            unfold GetCategory
            rw [hfc]
          have hq : threadQuery s tag n = [] := by
            unfold threadQuery
            rw [hfil]
            rfl
          simp only [GetThreadView, hgc, hq]
          rfl

/-- Witness for C10: querying the thread view at the reply number 2 of the
thread example state returns a view containing that reply (sorted), and
querying the unmatched number 99 returns NotFound. -/
theorem c10_witness :
    (∃ posts,
        GetThreadView exThreadState "a" 2
          = Except.ok ({ tag := "a", name := "A", postCount := 3 }, posts) ∧
        ({ num := 2, cat := "a", parent := 1, content := "re" } : Post) ∈ posts ∧
        List.Sorted postNumLE posts) ∧
    GetThreadView exThreadState "a" 99 = Except.error StoreErr.notFound := by
  constructor
  · exact (c10_thread_view exThreadState "a" 2).1
      { tag := "a", name := "A", postCount := 3 } (by decide)
      { num := 2, cat := "a", parent := 1, content := "re" } (by decide) rfl rfl
  · exact (c10_thread_view exThreadState "a" 99).2.mpr (Or.inr (by decide))

end SpiritChat
